import Mathlib

/-!
# Verification of the eedl satellite-image downloader

Shallow embedding of `getMGRS.py` and `eedl.py` (CMUAbstract/eedl), with
theorems settling the specification claims about the grid registry, the
projection choice, rectangle construction, the retry/backoff pipeline, the
export-job poll loop, the sampling-seed handling and the region filter.

Conventions: Python floats are modelled as rationals; the degree bounds in
the MGRS grid are integers in the source (numpy integer arithmetic) and are
modelled as `Int`; Python dicts are modelled as association lists in which
assignment replaces an existing binding in place (preserving insertion
order, as Python dicts do) and `del` removes the binding; opaque Earth
Engine objects are modelled as symbolic syntax trees; the ambient numpy
random generator is modelled as a stream of pending draws.
-/

namespace Eedl

/-! ## getMGRS.py: the grid registry -/

/-- Bounding box `(west, south, east, north)` in integer degrees, the value
type of the dictionary built by `getMGRS`. -/
abbrev Box := Int × Int × Int × Int

/-- Model of the Python dict: an insertion-ordered association list. -/
abbrev Grid := List (String × Box)

/-- Assignment `d[k] = v` on a Python dict: replace the binding in place if
`k` is present, else append it at the end. -/
def setKey (g : Grid) (k : String) (v : Box) : Grid :=
  match g with
  | [] => [(k, v)]
  | (k', v') :: rest => if k' = k then (k, v) :: rest else (k', v') :: setKey rest k v

/-- Deletion `del d[k]` on a Python dict: drop the first binding of `k`. -/
def delKey (g : Grid) (k : String) : Grid :=
  match g with
  | [] => []
  | (k', v') :: rest => if k' = k then rest else (k', v') :: delKey rest k

/-- Subscript `d[k]` as a total lookup: `some` box if the key is bound,
`none` if absent (the Python lookup raises `KeyError` on an absent key). -/
def lookupG (g : Grid) (k : String) : Option Box :=
  match g with
  | [] => none
  | (k', v') :: rest => if k' = k then some v' else lookupG rest k

/-- Constant `LONSTEP = 6` (getMGRS.py line 11). -/
def LONSTEP : Int := 6

/-- Constant `LATSTEP = 8` (getMGRS.py line 12). -/
def LATSTEP : Int := 8

/-- Array `np.arange(-180, 180, LONSTEP)`: the 60 western zone edges. -/
def lons : List Int := (List.range 60).map (fun j => -180 + 6 * (j : Int))

/-- Array `np.arange(-80, 80, LATSTEP)`: the 20 southern band edges. -/
def lats : List Int := (List.range 20).map (fun i => -80 + 8 * (i : Int))

/-- Array `np.arange(1, 61)`: the zone numbers 1..60. -/
def lon_labels : List Nat := (List.range 60).map (· + 1)

/-- The 20-letter MGRS latitude-band alphabet C..X (I and O excluded),
`lat_labels` in getMGRS.py. -/
def lat_labels : List Char :=
  ['C','D','E','F','G','H','J','K','L','M','N','P','Q','R','S','T','U','V','W','X']

/-- Padding `str(n).zfill(2)`: pad the decimal representation to width 2
with a leading zero. -/
def zfill2 (n : Nat) : String :=
  let s := toString n
  if s.length < 2 then "0" ++ s else s

/-- The regular grid from the first double loop of `getMGRS` (lines 26-29):
for each band letter (row `i`) and zone number (column `j`), bind
`str(lon_label).zfill(2) + lat_label` to
`(lons[j], lats[i], lons[j] + LONSTEP, lats[i] + LATSTEP)`. -/
def grid0 : Grid :=
  lat_labels.enum.foldl (fun g p =>
    lon_labels.enum.foldl (fun g q =>
      setKey g (zfill2 q.2 ++ p.2.toString)
        (lons.getD q.1 0, lats.getD p.1 0,
         lons.getD q.1 0 + LONSTEP, lats.getD p.1 0 + LATSTEP)) g) []

/-- The wide-X overlay from the second loop of `getMGRS` (lines 31-33): for
each zone number `i`, rebind `str(i).zfill(2) + 'X'` to
`(lons[i-1], 72, lons[i-1] + LONSTEP, 84)`. -/
def grid1 : Grid :=
  lon_labels.foldl (fun g i =>
    setKey g (zfill2 i ++ "X") (lons.getD (i - 1) 0, 72, lons.getD (i - 1) 0 + LONSTEP, 84)) grid0

/-- Function `getMGRS()` (getMGRS.py lines 14-43): regular grid, wide-X
overlay, the six explicit irregular overrides, then deletion of `32X`,
`34X` and `36X`. -/
def getMGRS : Grid :=
  let g := grid1
  let g := setKey g "31V" (0, 56, 3, 64)
  let g := setKey g "32V" (3, 56, 12, 64)
  let g := setKey g "31X" (0, 72, 9, 84)
  let g := setKey g "33X" (9, 72, 21, 84)
  let g := setKey g "35X" (21, 72, 33, 84)
  let g := setKey g "37X" (33, 72, 42, 84)
  let g := delKey g "32X"
  let g := delKey g "34X"
  let g := delKey g "36X"
  g

/-! ## eedl.py: projection choice and rectangle construction -/

/-- Projection choice of `make_rectangle` (eedl.py lines 147-150):
`"EPSG:327" + grid_key[:-1]` when `grid_key[-1] <= 'M'` (Python compares
one-character strings by code point), else `"EPSG:326" + grid_key[:-1]`. -/
def make_rectangle_proj (grid_key : String) : String :=
  if grid_key.back ≤ 'M' then "EPSG:327" ++ grid_key.dropRight 1
  else "EPSG:326" ++ grid_key.dropRight 1

/-- Position of a letter in the 20-letter MGRS band alphabet, used to state
the claims phrased in terms of alphabet order. -/
def bandIdx (c : Char) : Nat := lat_labels.indexOf c

/-- The crs choice of `get_url` (eedl.py lines 172-181): the explicit
`args.crs` when given; else the native image projection for the Landsat
sensors; else the same grid-key rule as `make_rectangle`. The opaque
`image.select(0).projection()` object is passed in as `image_proj`. -/
def getUrlCrs (args_crs : Option String) (sensor : String) (image_proj : String)
    (grid_key : String) : String :=
  match args_crs with
  | some c => c
  | none =>
    if sensor = "l8" ∨ sensor = "l9" then image_proj
    else if grid_key.back ≤ 'M' then "EPSG:327" ++ grid_key.dropRight 1
    else "EPSG:326" ++ grid_key.dropRight 1

/-- Function `make_rectangle` (eedl.py lines 131-159).  The pyproj transform
is an external collaborator and is passed in as a function `transform` from
`(lon, lat)` to planar `(x, y)`; a point where the transform is defined is a
point where the source call succeeds.  Returns the resolved projection
string together with the four-element list
`[pt_tl_x, pt_br_y, pt_br_x, pt_tl_y]` handed to `ee.Geometry.Rectangle`,
as the tuple `(pt_tl_x, pt_br_y, pt_br_x, pt_tl_y)`. -/
def make_rectangle (grid_key : String) (transform : ℚ × ℚ → ℚ × ℚ)
    (coords : ℚ × ℚ) (h_pt_buffer : ℚ) (v_pt_buffer : Option ℚ) :
    String × (ℚ × ℚ × ℚ × ℚ) :=
  let v := v_pt_buffer.getD h_pt_buffer
  let proj := if grid_key.back ≤ 'M' then "EPSG:327" ++ grid_key.dropRight 1
              else "EPSG:326" ++ grid_key.dropRight 1
  let transformed_pt := transform coords
  let pt_tl_x := transformed_pt.1 - h_pt_buffer
  let pt_tl_y := transformed_pt.2 + v
  let pt_br_x := transformed_pt.1 + h_pt_buffer
  let pt_br_y := transformed_pt.2 - v
  (proj, (pt_tl_x, pt_br_y, pt_br_x, pt_tl_y))

/-! ## eedl.py: export-job poll loop -/

/-- Loop guard of the export poll loop (eedl.py line 368): not all of, for
each task, the disjunction of the observed state differing from READY and
the observed state differing from RUNNING.  `states` is the list of the
state string observed for each task during the round. -/
def poll_guard (states : List String) : Bool :=
  !(states.all (fun s => (s != "READY") || (s != "RUNNING")))

/-- Modelled from the spec: the poll condition the specification prescribes
for the export-job controller, namely continue polling while ANY job is
still non-terminal (state READY or RUNNING). -/
def spec_poll_continue (states : List String) : Bool :=
  states.any (fun s => (s == "READY") || (s == "RUNNING"))

/-! ## eedl.py: retry/backoff download pipeline -/

/-- One run of the body under `@retry(tries, delay, backoff=2)` (eedl.py
line 193).  `attempt a` is the outcome of the `a`-th execution of
`get_and_download_url` for the task: `some file` when the fetch succeeds and
writes `file`, `none` when it raises (non-200 status, connection error,
timeout).  Returns the final outcome together with the list of backoff
delays slept between attempts, following the retry library: while tries
remain, run the body; on failure decrement, and if tries remain sleep the
current delay and double it. -/
def retryRun (attempt : Nat → Option String) : Nat → Nat → Nat → Option String × List Nat
  | 0, _, _ => (none, [])
  | t + 1, d, a =>
    match attempt a with
    | some f => (some f, [])
    | none =>
      if t = 0 then (none, [])
      else
        let r := retryRun attempt t (d * 2) (a + 1)
        (r.1, d :: r.2)

/-- Decorator instance `@retry(tries=10, delay=1, backoff=2)` wrapping
`get_and_download_url` (eedl.py lines 193-194). -/
def retryCall (attempt : Nat → Option String) : Option String × List Nat :=
  retryRun attempt 10 1 0

/-- The download pipeline `process_map(get_and_download_url, indexes, ...)`
(eedl.py line 361): every requested index is handed to a worker running the
retry-wrapped fetch; workers are independent, so the run is modelled by its
per-index outcomes.  `attempts i a` is the outcome of attempt `a` of the
fetch for index `i`. -/
def pipelineRun (indices : List Nat) (attempts : Nat → Nat → Option String) :
    List (Option String × List Nat) :=
  indices.map (fun i => retryCall (attempts i))

/-! ## eedl.py: sampling-seed handling -/

/-- Model of the ambient numpy generator `np.random`: the stream of pending
`np.random.randint(100000)` draws, plus the `seed` attribute of the module.
In the source the statement `np.random.seed = seed` rebinds that attribute
to an integer instead of calling the seeding function, so it does not
influence the pending draws. -/
structure NpRandomState where
  draws : List Nat
  seedAttr : Option Nat

/-- Call `np.random.randint(100000)`: consume the next pending draw. -/
def np_randint (st : NpRandomState) : Nat × NpRandomState :=
  match st.draws with
  | [] => (0, st)
  | d :: rest => (d, { st with draws := rest })

/-- Seed handling on the s2 branch (eedl.py lines 298-306): when
`args.seed` is set, execute `np.random.seed = seed` (an attribute rebinding
that leaves the generator untouched), else draw a throwaway
`np.random.randint(100000)`; then pass a fresh `np.random.randint(100000)`
to `get_points_in_region` as the stratified-sampling seed.  Returns that
sampling seed. -/
def s2_sampling_seed (args_seed : Option Nat) (st : NpRandomState) : Nat :=
  match args_seed with
  | some s =>
    let st1 := { st with seedAttr := some s }
    (np_randint st1).1
  | none =>
    let p := np_randint st
    (np_randint p.2).1

/-! ## eedl.py: region filter -/

/-- Symbolic Earth Engine geometry: `ee.Geometry.Rectangle` on four bounds,
or `.buffer(dist)` applied to a geometry. -/
inductive EEGeom : Type
  | rectangle (left top right bottom : ℚ)
  | buffer (base : EEGeom) (dist : ℚ)
deriving DecidableEq

/-- Symbolic Earth Engine filter: `ee.Filter.bounds(geometry)`. -/
inductive EEFilter : Type
  | bounds (g : EEGeom)
deriving DecidableEq

/-- Function `get_region_filter_from_bounds` (eedl.py lines 30-55): build
the rectangle from the four bounds, buffer it by 500000 m when the sensor
is s2 (else leave it unbuffered), build the bounds filter from the possibly
buffered rectangle, and return the unbuffered rectangle alongside when
`get_rect` is set.  The second component models the optional second return
value. -/
def get_region_filter_from_bounds (sensor : String) (bounds : ℚ × ℚ × ℚ × ℚ)
    (get_rect : Bool) : EEFilter × Option EEGeom :=
  let rect_from_bounds := EEGeom.rectangle bounds.1 bounds.2.1 bounds.2.2.1 bounds.2.2.2
  let out_rect := if sensor = "s2" then EEGeom.buffer rect_from_bounds 500000
                  else rect_from_bounds
  let region_filter_from_bounds := EEFilter.bounds out_rect
  if get_rect then (region_filter_from_bounds, some rect_from_bounds)
  else (region_filter_from_bounds, none)


/-! ## Proof-side definitions: keys, pair lists, intermediate grids -/

/-- List of keys of a grid, in insertion order. -/
def keysG (g : Grid) : List String := g.map Prod.fst


/-- Sequential dict assignment of a list of (key, value) pairs, the shape of
the construction loops in `getMGRS`. -/
def applyAll (g : Grid) (ps : List (String × Box)) : Grid :=
  ps.foldl (fun g p => setKey g p.1 p.2) g


/-! ## The pair lists inserted by the getMGRS loops -/

/-- Key built from a zone number and a band letter, as the source does. -/
def keyOf (n : Nat) (c : Char) : String := zfill2 n ++ c.toString

/-- The (key, box) pairs assigned by the first double loop of `getMGRS`, in
loop order. -/
def pairs0 : List (String × Box) :=
  lat_labels.enum.flatMap (fun p =>
    lon_labels.enum.map (fun q =>
      (zfill2 q.2 ++ p.2.toString,
        (lons.getD q.1 0, lats.getD p.1 0,
         lons.getD q.1 0 + LONSTEP, lats.getD p.1 0 + LATSTEP))))

/-- The (key, box) pairs assigned by the wide-X loop of `getMGRS`, in loop
order. -/
def pairsX : List (String × Box) :=
  lon_labels.map (fun i =>
    (zfill2 i ++ "X", (lons.getD (i - 1) 0, 72, lons.getD (i - 1) 0 + LONSTEP, 84)))


/-- The six explicit override bindings of `getMGRS`, in program order. -/
def overridePairs : List (String × Box) :=
  [("31V", (0, 56, 3, 64)), ("32V", (3, 56, 12, 64)), ("31X", (0, 72, 9, 84)),
   ("33X", (9, 72, 21, 84)), ("35X", (21, 72, 33, 84)), ("37X", (33, 72, 42, 84))]

/-- The grid after the six overrides, before the deletions. -/
def gridOv : Grid :=
  setKey (setKey (setKey (setKey (setKey (setKey grid1
    "31V" (0, 56, 3, 64)) "32V" (3, 56, 12, 64)) "31X" (0, 72, 9, 84))
    "33X" (9, 72, 21, 84)) "35X" (21, 72, 33, 84)) "37X" (33, 72, 42, 84)


/-- The 60 band-X keys of the grid, in zone order. -/
def xBandKeys : List String := lon_labels.map (fun n => zfill2 n ++ "X")


/-! ## Grid machinery: generic lemmas about the dict model -/

lemma lookupG_eq_none {g : Grid} {k : String} (h : k ∉ keysG g) :
    lookupG g k = none := by
  induction g with
  | nil => rfl
  | cons p rest ih =>
    obtain ⟨k1, v1⟩ := p
    simp only [keysG, List.map_cons, List.mem_cons, not_or] at h
    have h1 : ¬(k1 = k) := fun e => h.1 e.symm
    simp only [lookupG, if_neg h1]
    exact ih h.2

lemma lookupG_setKey_self (g : Grid) (k : String) (v : Box) :
    lookupG (setKey g k v) k = some v := by
  induction g with
  | nil => simp [setKey, lookupG]
  | cons p rest ih =>
    obtain ⟨k1, v1⟩ := p
    by_cases h : k1 = k
    · simp [setKey, lookupG, h]
    · simp only [setKey, if_neg h, lookupG, if_neg h]
      exact ih

lemma lookupG_setKey_ne (g : Grid) (k : String) (v : Box) {q : String} (h : q ≠ k) :
    lookupG (setKey g k v) q = lookupG g q := by
  have hk : ¬(k = q) := fun e => h e.symm
  induction g with
  | nil => simp [setKey, lookupG, hk]
  | cons p rest ih =>
    obtain ⟨k1, v1⟩ := p
    by_cases hq : k1 = k
    · subst hq
      simp [setKey, lookupG, hk]
    · simp only [setKey, if_neg hq, lookupG]
      by_cases h1 : k1 = q
      · simp [h1]
      · simp [h1, ih]

lemma lookupG_delKey_ne (g : Grid) (k : String) {q : String} (h : q ≠ k) :
    lookupG (delKey g k) q = lookupG g q := by
  have hk : ¬(k = q) := fun e => h e.symm
  induction g with
  | nil => rfl
  | cons p rest ih =>
    obtain ⟨k1, v1⟩ := p
    by_cases hq : k1 = k
    · subst hq
      simp [delKey, lookupG, hk]
    · simp only [delKey, if_neg hq, lookupG]
      by_cases h1 : k1 = q
      · simp [h1]
      · simp [h1, ih]

lemma keysG_setKey_mem {g : Grid} {k : String} (v : Box) (h : k ∈ keysG g) :
    keysG (setKey g k v) = keysG g := by
  induction g with
  | nil => simp [keysG] at h
  | cons p rest ih =>
    obtain ⟨k1, v1⟩ := p
    by_cases hq : k1 = k
    · simp [setKey, keysG, hq]
    · simp only [keysG, List.map_cons, List.mem_cons] at h
      rcases h with h | h
      · exact absurd h.symm hq
      · have ih2 := ih h
        simp only [setKey, if_neg hq, keysG, List.map_cons] at ih2 ⊢
        rw [ih2]

lemma keysG_setKey_not_mem {g : Grid} {k : String} (v : Box) (h : k ∉ keysG g) :
    keysG (setKey g k v) = keysG g ++ [k] := by
  induction g with
  | nil => simp [setKey, keysG]
  | cons p rest ih =>
    obtain ⟨k1, v1⟩ := p
    simp only [keysG, List.map_cons, List.mem_cons, not_or] at h
    have h1 : ¬(k1 = k) := fun e => h.1 e.symm
    have ih2 := ih h.2
    simp only [setKey, if_neg h1, keysG, List.map_cons, List.cons_append] at ih2 ⊢
    rw [ih2]

lemma setKey_eq_append {g : Grid} {k : String} (v : Box) (h : k ∉ keysG g) :
    setKey g k v = g ++ [(k, v)] := by
  induction g with
  | nil => rfl
  | cons p rest ih =>
    obtain ⟨k1, v1⟩ := p
    simp only [keysG, List.map_cons, List.mem_cons, not_or] at h
    have h1 : ¬(k1 = k) := fun e => h.1 e.symm
    simp only [setKey, if_neg h1, List.cons_append]
    rw [ih h.2]

lemma mem_setKey {g : Grid} {k : String} {v : Box} {p : String × Box}
    (h : p ∈ setKey g k v) : p = (k, v) ∨ p ∈ g := by
  induction g with
  | nil => simpa [setKey] using h
  | cons q rest ih =>
    obtain ⟨k1, v1⟩ := q
    by_cases hq : k1 = k
    · simp only [setKey, if_pos hq, List.mem_cons] at h
      rcases h with h | h
      · exact Or.inl h
      · exact Or.inr (List.mem_cons_of_mem _ h)
    · simp only [setKey, if_neg hq, List.mem_cons] at h
      rcases h with h | h
      · exact Or.inr (List.mem_cons.mpr (Or.inl h))
      · rcases ih h with h2 | h2
        · exact Or.inl h2
        · exact Or.inr (List.mem_cons_of_mem _ h2)

lemma mem_setKey_self (g : Grid) (k : String) (v : Box) :
    (k, v) ∈ setKey g k v := by
  induction g with
  | nil => simp [setKey]
  | cons q rest ih =>
    obtain ⟨k1, v1⟩ := q
    by_cases hq : k1 = k
    · simp [setKey, hq]
    · simp only [setKey, if_neg hq, List.mem_cons]
      exact Or.inr ih

lemma mem_setKey_of_mem {g : Grid} {p : String × Box} (k : String) (v : Box)
    (h : p ∈ g) (hne : p.1 ≠ k) : p ∈ setKey g k v := by
  induction g with
  | nil => simp at h
  | cons q rest ih =>
    obtain ⟨k1, v1⟩ := q
    by_cases hq : k1 = k
    · simp only [setKey, if_pos hq, List.mem_cons]
      rcases List.mem_cons.mp h with h | h
      · exfalso
        apply hne
        rw [h]
        exact hq
      · exact Or.inr h
    · simp only [setKey, if_neg hq, List.mem_cons]
      rcases List.mem_cons.mp h with h | h
      · exact Or.inl h
      · exact Or.inr (ih h)

lemma mem_delKey {g : Grid} {k : String} {p : String × Box}
    (h : p ∈ delKey g k) : p ∈ g := by
  induction g with
  | nil => simp [delKey] at h
  | cons q rest ih =>
    obtain ⟨k1, v1⟩ := q
    by_cases hq : k1 = k
    · simp only [delKey, if_pos hq] at h
      exact List.mem_cons_of_mem _ h
    · simp only [delKey, if_neg hq, List.mem_cons] at h
      rcases h with h | h
      · exact List.mem_cons.mpr (Or.inl h)
      · exact List.mem_cons_of_mem _ (ih h)

lemma mem_delKey_of_mem {g : Grid} {p : String × Box} (k : String)
    (h : p ∈ g) (hne : p.1 ≠ k) : p ∈ delKey g k := by
  induction g with
  | nil => simp at h
  | cons q rest ih =>
    obtain ⟨k1, v1⟩ := q
    by_cases hq : k1 = k
    · simp only [delKey, if_pos hq]
      rcases List.mem_cons.mp h with h | h
      · exfalso
        apply hne
        rw [h]
        exact hq
      · exact h
    · simp only [delKey, if_neg hq, List.mem_cons]
      rcases List.mem_cons.mp h with h | h
      · exact Or.inl h
      · exact Or.inr (ih h)

lemma keysG_delKey (g : Grid) (k : String) :
    keysG (delKey g k) = (keysG g).erase k := by
  induction g with
  | nil => rfl
  | cons q rest ih =>
    obtain ⟨k1, v1⟩ := q
    by_cases hq : k1 = k
    · subst hq
      simp [delKey, keysG, List.erase_cons_head]
    · have h1 : (k1 == k) = false := by simpa using hq
      have ih2 : List.map Prod.fst (delKey rest k) = (List.map Prod.fst rest).erase k := ih
      simp [delKey, if_neg hq, keysG, List.erase_cons, h1, ih2]


lemma applyAll_append (g : Grid) (ps qs : List (String × Box)) :
    applyAll g (ps ++ qs) = applyAll (applyAll g ps) qs :=
  List.foldl_append _ _ _ _

lemma mem_applyAll {g : Grid} {ps : List (String × Box)} {p : String × Box}
    (h : p ∈ applyAll g ps) : p ∈ g ∨ p ∈ ps := by
  induction ps generalizing g with
  | nil => exact Or.inl h
  | cons p0 rest ih =>
    rcases ih h with h1 | h1
    · rcases mem_setKey h1 with h2 | h2
      · exact Or.inr (List.mem_cons.mpr (Or.inl h2))
      · exact Or.inl h2
    · exact Or.inr (List.mem_cons_of_mem _ h1)

lemma applyAll_fresh {g : Grid} {ps : List (String × Box)}
    (h1 : ∀ k ∈ ps.map Prod.fst, k ∉ keysG g) (h2 : (ps.map Prod.fst).Nodup) :
    applyAll g ps = g ++ ps := by
  induction ps generalizing g with
  | nil => simp [applyAll]
  | cons p0 rest ih =>
    have hp0 : p0.1 ∉ keysG g := h1 p0.1 (by simp)
    have hset : setKey g p0.1 p0.2 = g ++ [p0] := by
      rw [setKey_eq_append p0.2 hp0]
    have hrest1 : ∀ k ∈ rest.map Prod.fst, k ∉ keysG (g ++ [p0]) := by
      intro k hk
      have hkg : k ∉ keysG g := h1 k (by simp [hk])
      have hkp : k ≠ p0.1 := by
        intro e
        subst e
        simp only [List.map_cons] at h2
        exact (List.nodup_cons.mp h2).1 hk
      show k ∉ keysG (g ++ [p0])
      rw [show keysG (g ++ [p0]) = keysG g ++ [p0.1] from by simp [keysG]]
      simp only [List.mem_append, List.mem_singleton, not_or]
      exact ⟨hkg, hkp⟩
    have hrest2 : (rest.map Prod.fst).Nodup := by
      simp only [List.map_cons] at h2
      exact (List.nodup_cons.mp h2).2
    show applyAll (setKey g p0.1 p0.2) rest = g ++ p0 :: rest
    rw [hset, ih hrest1 hrest2, List.append_assoc]
    rfl

lemma keysG_applyAll_mem {g : Grid} {ps : List (String × Box)}
    (h : ∀ k ∈ ps.map Prod.fst, k ∈ keysG g) :
    keysG (applyAll g ps) = keysG g := by
  induction ps generalizing g with
  | nil => rfl
  | cons p0 rest ih =>
    have hp0 : p0.1 ∈ keysG g := h p0.1 (by simp)
    have hkeys : keysG (setKey g p0.1 p0.2) = keysG g := keysG_setKey_mem _ hp0
    show keysG (applyAll (setKey g p0.1 p0.2) rest) = keysG g
    rw [ih, hkeys]
    intro k hk
    rw [hkeys]
    exact h k (by simp [hk])

lemma mem_applyAll_of_mem_left {g : Grid} {ps : List (String × Box)} {p : String × Box}
    (h : p ∈ g) (hk : p.1 ∉ ps.map Prod.fst) : p ∈ applyAll g ps := by
  induction ps generalizing g with
  | nil => exact h
  | cons p0 rest ih =>
    simp only [List.map_cons, List.mem_cons, not_or] at hk
    exact ih (mem_setKey_of_mem p0.1 p0.2 h hk.1) hk.2

lemma mem_applyAll_of_mem {g : Grid} {ps : List (String × Box)} {p : String × Box}
    (h2 : (ps.map Prod.fst).Nodup) (h : p ∈ ps) : p ∈ applyAll g ps := by
  induction ps generalizing g with
  | nil => simp at h
  | cons p0 rest ih =>
    simp only [List.map_cons, List.nodup_cons] at h2
    rcases List.mem_cons.mp h with h1 | h1
    · subst h1
      show p ∈ applyAll (setKey g p.1 p.2) rest
      exact mem_applyAll_of_mem_left (mem_setKey_self g p.1 p.2) h2.1
    · exact ih h2.2 h1

lemma applyAll_flatMap {α : Type} (g : Grid) (l : List α) (f : α → List (String × Box)) :
    applyAll g (l.flatMap f) = l.foldl (fun g a => applyAll g (f a)) g := by
  induction l generalizing g with
  | nil => rfl
  | cons a rest ih =>
    rw [List.flatMap_cons, applyAll_append, List.foldl_cons, ih]

lemma grid0_eq : grid0 = applyAll [] pairs0 := by
  unfold grid0 pairs0
  rw [applyAll_flatMap]
  simp only [applyAll, List.foldl_map]

lemma grid1_eq : grid1 = applyAll grid0 pairsX := by
  unfold grid1 pairsX applyAll
  rw [List.foldl_map]


/-! ## Keys of the grid: injectivity and distinctness -/

lemma string_append_right_inj {t s1 s2 : String} (h : s1 ++ t = s2 ++ t) : s1 = s2 := by
  have hd : s1.data ++ t.data = s2.data ++ t.data := by
    rw [← String.data_append, ← String.data_append, h]
  exact String.ext (List.append_cancel_right hd)

lemma char_toString_data (c : Char) : (Char.toString c).data = [c] := rfl

lemma keyOf_inj {n1 n2 : Nat} {c1 c2 : Char} (h : keyOf n1 c1 = keyOf n2 c2) :
    zfill2 n1 = zfill2 n2 ∧ c1 = c2 := by
  have hd : (zfill2 n1).data ++ [c1] = (zfill2 n2).data ++ [c2] := by
    have h2 := congrArg String.data h
    simpa [keyOf, String.data_append, char_toString_data] using h2
  have hrev := congrArg List.reverse hd
  simp only [List.reverse_append, List.reverse_cons, List.reverse_nil,
    List.nil_append, List.cons_append, List.singleton_append] at hrev
  have hc : c1 = c2 := (List.cons.inj hrev).1
  have hz : (zfill2 n1).data.reverse = (zfill2 n2).data.reverse := (List.cons.inj hrev).2
  exact ⟨String.ext (List.reverse_injective hz), hc⟩

lemma nodup_zfill2_map : (lon_labels.map zfill2).Nodup := by decide

lemma nodup_lat_labels : lat_labels.Nodup := by decide

lemma row_keys_eq (c : Char) :
    lon_labels.map (fun n => keyOf n c) = (lon_labels.map zfill2).map (fun s => s ++ c.toString) := by
  rw [List.map_map]
  rfl

lemma nodup_row_keys (c : Char) : (lon_labels.map (fun n => keyOf n c)).Nodup := by
  rw [row_keys_eq]
  exact nodup_zfill2_map.map (fun s1 s2 h => string_append_right_inj h)

lemma flatMap_enum_snd {α β : Type} (l : List α) (f : α → List β) :
    l.enum.flatMap (fun q => f q.2) = l.flatMap f := by
  have h := List.flatMap_map Prod.snd f l.enum
  rw [List.enum_map_snd] at h
  exact h.symm

lemma pairs0_keys : pairs0.map Prod.fst =
    lat_labels.flatMap (fun c => lon_labels.map (fun n => keyOf n c)) := by
  unfold pairs0
  rw [List.map_flatMap]
  have h1 : ∀ p : Nat × Char,
      (lon_labels.enum.map (fun q : Nat × Nat =>
        ((zfill2 q.2 ++ p.2.toString : String),
          ((lons.getD q.1 0 : Int), lats.getD p.1 0,
           lons.getD q.1 0 + LONSTEP, lats.getD p.1 0 + LATSTEP)))).map Prod.fst
      = lon_labels.map (fun n => keyOf n p.2) := by
    intro p
    rw [List.map_map]
    have h2 : (Prod.fst ∘ fun q : Nat × Nat =>
        ((zfill2 q.2 ++ p.2.toString : String),
          ((lons.getD q.1 0 : Int), lats.getD p.1 0,
           lons.getD q.1 0 + LONSTEP, lats.getD p.1 0 + LATSTEP)))
        = (fun n => keyOf n p.2) ∘ Prod.snd := rfl
    rw [h2, ← List.map_map, List.enum_map_snd]
  have h3 : (fun p : Nat × Char =>
      (lon_labels.enum.map (fun q : Nat × Nat =>
        ((zfill2 q.2 ++ p.2.toString : String),
          ((lons.getD q.1 0 : Int), lats.getD p.1 0,
           lons.getD q.1 0 + LONSTEP, lats.getD p.1 0 + LATSTEP)))).map Prod.fst)
      = (fun p : Nat × Char => lon_labels.map (fun n => keyOf n p.2)) := by
    funext p
    exact h1 p
  rw [h3]
  exact flatMap_enum_snd lat_labels (fun c => lon_labels.map (fun n => keyOf n c))

lemma nodup_pairs0_keys : (pairs0.map Prod.fst).Nodup := by
  rw [pairs0_keys, List.nodup_flatMap]
  constructor
  · intro c _
    exact nodup_row_keys c
  · refine nodup_lat_labels.imp ?_
    intro a b hab
    intro k hka hkb
    rcases List.mem_map.mp hka with ⟨n1, _, he1⟩
    rcases List.mem_map.mp hkb with ⟨n2, _, he2⟩
    exact hab (keyOf_inj (he1.trans he2.symm)).2

lemma pairsX_keys : pairsX.map Prod.fst = lon_labels.map (fun n => keyOf n 'X') := by
  unfold pairsX
  rw [List.map_map]
  rfl

lemma mem_lon_labels_iff {n : Nat} : n ∈ lon_labels ↔ 1 ≤ n ∧ n ≤ 60 := by
  unfold lon_labels
  simp only [List.mem_map, List.mem_range]
  constructor
  · rintro ⟨j, hj, rfl⟩
    omega
  · intro h
    exact ⟨n - 1, by omega, by omega⟩

lemma mem_pairs0_keys_iff {k : String} :
    k ∈ pairs0.map Prod.fst ↔ ∃ c ∈ lat_labels, ∃ n ∈ lon_labels, keyOf n c = k := by
  rw [pairs0_keys]
  simp [List.mem_flatMap, List.mem_map]

lemma keyOf_mem_pairs0_keys {n : Nat} {c : Char} (hn1 : 1 ≤ n) (hn2 : n ≤ 60)
    (hc : c ∈ lat_labels) : keyOf n c ∈ pairs0.map Prod.fst :=
  mem_pairs0_keys_iff.mpr ⟨c, hc, n, mem_lon_labels_iff.mpr ⟨hn1, hn2⟩, rfl⟩


/-! ## Keys and entries of the built registry -/

lemma grid0_eq_pairs0 : grid0 = pairs0 := by
  rw [grid0_eq]
  have h1 : ∀ k ∈ pairs0.map Prod.fst, k ∉ keysG ([] : Grid) := by
    intro k _
    simp [keysG]
  rw [applyAll_fresh h1 nodup_pairs0_keys]
  rfl

lemma keysG_grid0 : keysG grid0 = pairs0.map Prod.fst := by
  rw [grid0_eq_pairs0]
  rfl

lemma pairsX_keys_mem : ∀ k ∈ pairsX.map Prod.fst, k ∈ keysG grid0 := by
  intro k hk
  rw [pairsX_keys] at hk
  rcases List.mem_map.mp hk with ⟨n, hn, he⟩
  rw [keysG_grid0, ← he]
  rcases mem_lon_labels_iff.mp hn with ⟨h1, h2⟩
  exact keyOf_mem_pairs0_keys h1 h2 (by decide)

lemma keysG_grid1 : keysG grid1 = pairs0.map Prod.fst := by
  rw [grid1_eq, keysG_applyAll_mem pairsX_keys_mem, keysG_grid0]

lemma nodup_pairsX_keys : (pairsX.map Prod.fst).Nodup := by
  rw [pairsX_keys]
  exact nodup_row_keys 'X'

lemma getMGRS_eq : getMGRS = delKey (delKey (delKey gridOv "32X") "34X") "36X" := rfl

lemma keysG_setKey_pairs {g : Grid} (hg : keysG g = pairs0.map Prod.fst) (k : String)
    (v : Box) (hk : k ∈ pairs0.map Prod.fst) :
    keysG (setKey g k v) = pairs0.map Prod.fst := by
  have hm : k ∈ keysG g := by
    rw [hg]
    exact hk
  rw [keysG_setKey_mem v hm]
  exact hg

lemma mem_keys_31V : ("31V" : String) ∈ pairs0.map Prod.fst := by
  rw [show ("31V" : String) = keyOf 31 'V' from rfl]
  exact keyOf_mem_pairs0_keys (by omega) (by omega) (by decide)

lemma mem_keys_32V : ("32V" : String) ∈ pairs0.map Prod.fst := by
  rw [show ("32V" : String) = keyOf 32 'V' from rfl]
  exact keyOf_mem_pairs0_keys (by omega) (by omega) (by decide)

lemma mem_keys_31X : ("31X" : String) ∈ pairs0.map Prod.fst := by
  rw [show ("31X" : String) = keyOf 31 'X' from rfl]
  exact keyOf_mem_pairs0_keys (by omega) (by omega) (by decide)

lemma mem_keys_32X : ("32X" : String) ∈ pairs0.map Prod.fst := by
  rw [show ("32X" : String) = keyOf 32 'X' from rfl]
  exact keyOf_mem_pairs0_keys (by omega) (by omega) (by decide)

lemma mem_keys_33X : ("33X" : String) ∈ pairs0.map Prod.fst := by
  rw [show ("33X" : String) = keyOf 33 'X' from rfl]
  exact keyOf_mem_pairs0_keys (by omega) (by omega) (by decide)

lemma mem_keys_34X : ("34X" : String) ∈ pairs0.map Prod.fst := by
  rw [show ("34X" : String) = keyOf 34 'X' from rfl]
  exact keyOf_mem_pairs0_keys (by omega) (by omega) (by decide)

lemma mem_keys_35X : ("35X" : String) ∈ pairs0.map Prod.fst := by
  rw [show ("35X" : String) = keyOf 35 'X' from rfl]
  exact keyOf_mem_pairs0_keys (by omega) (by omega) (by decide)

lemma mem_keys_36X : ("36X" : String) ∈ pairs0.map Prod.fst := by
  rw [show ("36X" : String) = keyOf 36 'X' from rfl]
  exact keyOf_mem_pairs0_keys (by omega) (by omega) (by decide)

lemma mem_keys_37X : ("37X" : String) ∈ pairs0.map Prod.fst := by
  rw [show ("37X" : String) = keyOf 37 'X' from rfl]
  exact keyOf_mem_pairs0_keys (by omega) (by omega) (by decide)

lemma keysG_gridOv : keysG gridOv = pairs0.map Prod.fst := by
  unfold gridOv
  exact keysG_setKey_pairs (keysG_setKey_pairs (keysG_setKey_pairs (keysG_setKey_pairs
    (keysG_setKey_pairs (keysG_setKey_pairs keysG_grid1 "31V" _ mem_keys_31V)
      "32V" _ mem_keys_32V) "31X" _ mem_keys_31X) "33X" _ mem_keys_33X)
    "35X" _ mem_keys_35X) "37X" _ mem_keys_37X

lemma keysG_getMGRS :
    keysG getMGRS = (((pairs0.map Prod.fst).erase "32X").erase "34X").erase "36X" := by
  rw [getMGRS_eq, keysG_delKey, keysG_delKey, keysG_delKey, keysG_gridOv]

lemma mem_keysG_getMGRS_iff {k : String} :
    k ∈ keysG getMGRS ↔
      k ∈ pairs0.map Prod.fst ∧ k ∉ (["32X", "34X", "36X"] : List String) := by
  rw [keysG_getMGRS]
  have h0 := nodup_pairs0_keys
  have h1 := h0.erase "32X"
  have h2 := h1.erase "34X"
  rw [List.Nodup.mem_erase_iff h2, List.Nodup.mem_erase_iff h1, List.Nodup.mem_erase_iff h0]
  simp only [List.mem_cons, List.not_mem_nil, or_false, not_or]
  constructor
  · rintro ⟨h36, h34, h32, hK⟩
    exact ⟨hK, h32, h34, h36⟩
  · rintro ⟨hK, h32, h34, h36⟩
    exact ⟨h36, h34, h32, hK⟩

lemma length_pairs0_keys : (pairs0.map Prod.fst).length = 1200 := by
  rw [pairs0_keys, List.length_flatMap]
  simp [lat_labels, lon_labels]

lemma length_keysG_getMGRS : (keysG getMGRS).length = 1197 := by
  rw [keysG_getMGRS]
  have h0 := nodup_pairs0_keys
  have h1 := h0.erase "32X"
  have m34e : ("34X" : String) ∈ (pairs0.map Prod.fst).erase "32X" :=
    (List.Nodup.mem_erase_iff h0).mpr ⟨by decide, mem_keys_34X⟩
  have m36e : ("36X" : String) ∈ ((pairs0.map Prod.fst).erase "32X").erase "34X" :=
    (List.Nodup.mem_erase_iff h1).mpr
      ⟨by decide, (List.Nodup.mem_erase_iff h0).mpr ⟨by decide, mem_keys_36X⟩⟩
  rw [List.length_erase, if_pos m36e, List.length_erase, if_pos m34e,
    List.length_erase, if_pos mem_keys_32X, length_pairs0_keys]

lemma nodup_keysG_getMGRS : (keysG getMGRS).Nodup := by
  rw [keysG_getMGRS]
  exact ((nodup_pairs0_keys.erase _).erase _).erase _

lemma mem_getMGRS_cases {p : String × Box} (h : p ∈ getMGRS) :
    p ∈ overridePairs ∨ p ∈ pairsX ∨ p ∈ pairs0 := by
  rw [getMGRS_eq] at h
  have h1 : p ∈ gridOv := mem_delKey (mem_delKey (mem_delKey h))
  unfold gridOv at h1
  rcases mem_setKey h1 with h2 | h1
  · exact Or.inl (by rw [h2]; simp [overridePairs])
  rcases mem_setKey h1 with h2 | h1
  · exact Or.inl (by rw [h2]; simp [overridePairs])
  rcases mem_setKey h1 with h2 | h1
  · exact Or.inl (by rw [h2]; simp [overridePairs])
  rcases mem_setKey h1 with h2 | h1
  · exact Or.inl (by rw [h2]; simp [overridePairs])
  rcases mem_setKey h1 with h2 | h1
  · exact Or.inl (by rw [h2]; simp [overridePairs])
  rcases mem_setKey h1 with h2 | h1
  · exact Or.inl (by rw [h2]; simp [overridePairs])
  rw [grid1_eq] at h1
  rcases mem_applyAll h1 with h3 | h3
  · right
    right
    rw [← grid0_eq_pairs0]
    exact h3
  · exact Or.inr (Or.inl h3)

lemma mem_getMGRS_31V : (("31V", ((0 : Int), 56, 3, 64)) : String × Box) ∈ getMGRS := by
  rw [getMGRS_eq]
  refine mem_delKey_of_mem _ ?_ (by decide)
  refine mem_delKey_of_mem _ ?_ (by decide)
  refine mem_delKey_of_mem _ ?_ (by decide)
  unfold gridOv
  refine mem_setKey_of_mem _ _ ?_ (by decide)
  refine mem_setKey_of_mem _ _ ?_ (by decide)
  refine mem_setKey_of_mem _ _ ?_ (by decide)
  refine mem_setKey_of_mem _ _ ?_ (by decide)
  refine mem_setKey_of_mem _ _ ?_ (by decide)
  exact mem_setKey_self grid1 "31V" (0, 56, 3, 64)

lemma mem_getMGRS_01X : (("01X", ((-180 : Int), 72, -174, 84)) : String × Box) ∈ getMGRS := by
  rw [getMGRS_eq]
  refine mem_delKey_of_mem _ ?_ (by decide)
  refine mem_delKey_of_mem _ ?_ (by decide)
  refine mem_delKey_of_mem _ ?_ (by decide)
  unfold gridOv
  refine mem_setKey_of_mem _ _ ?_ (by decide)
  refine mem_setKey_of_mem _ _ ?_ (by decide)
  refine mem_setKey_of_mem _ _ ?_ (by decide)
  refine mem_setKey_of_mem _ _ ?_ (by decide)
  refine mem_setKey_of_mem _ _ ?_ (by decide)
  refine mem_setKey_of_mem _ _ ?_ (by decide)
  rw [grid1_eq]
  apply mem_applyAll_of_mem nodup_pairsX_keys
  unfold pairsX
  refine List.mem_map.mpr ⟨1, ?_, ?_⟩
  · exact mem_lon_labels_iff.mpr ⟨le_refl 1, by omega⟩
  · decide


/-! ## Retry machinery lemmas -/

lemma retryRun_succ (attempt : Nat → Option String) (t d a : Nat) :
    retryRun attempt (t + 1) d a =
      match attempt a with
      | some f => (some f, [])
      | none =>
        if t = 0 then (none, [])
        else ((retryRun attempt t (d * 2) (a + 1)).1,
          d :: (retryRun attempt t (d * 2) (a + 1)).2) := rfl

lemma retryRun_all_fail {attempt : Nat → Option String} :
    ∀ t a d : Nat, (∀ i, i < t → attempt (a + i) = none) →
    retryRun attempt t d a = (none, (List.range (t - 1)).map (fun i => d * 2 ^ i)) := by
  intro t
  induction t with
  | zero =>
    intro a d _
    simp [retryRun]
  | succ t ih =>
    intro a d h
    have h0 : attempt a = none := by simpa using h 0 (by omega)
    by_cases ht : t = 0
    · subst ht
      rw [retryRun_succ, h0]
      simp
    · obtain ⟨m, rfl⟩ := Nat.exists_eq_succ_of_ne_zero ht
      have hrec := ih (a + 1) (d * 2) (fun i hi => by
        have h2 := h (i + 1) (by omega)
        rw [show a + 1 + i = a + (i + 1) from by omega]
        exact h2)
      have hlist : (List.range (m + 1)).map (fun i => d * 2 ^ i) =
          d :: (List.range m).map (fun i => d * 2 * 2 ^ i) := by
        rw [List.range_succ_eq_map, List.map_cons, List.map_map]
        have hfun : ((fun i => d * 2 ^ i) ∘ fun i => i + 1) =
            (fun i => d * 2 * 2 ^ i) := by
          funext i
          simp [Function.comp, pow_succ]
          ring
        rw [hfun]
        simp
      rw [retryRun_succ, h0]
      dsimp only
      rw [if_neg (by omega : ¬(m + 1 = 0)), hrec]
      rw [show m + 1 + 1 - 1 = m + 1 from rfl, hlist]
      rfl

lemma retryRun_congr {f g : Nat → Option String} :
    ∀ t a d : Nat, (∀ i, i < t → f (a + i) = g (a + i)) →
    retryRun f t d a = retryRun g t d a := by
  intro t
  induction t with
  | zero =>
    intro a d _
    rfl
  | succ t ih =>
    intro a d h
    have h0 : f a = g a := by simpa using h 0 (by omega)
    rw [retryRun_succ, retryRun_succ, h0]
    cases hg : g a with
    | some v => rfl
    | none =>
      dsimp only
      by_cases ht : t = 0
      · rw [if_pos ht, if_pos ht]
      · have hrec := ih (a + 1) (d * 2) (fun i hi => by
          have h2 := h (i + 1) (by omega)
          rw [show a + 1 + i = a + (i + 1) from by omega]
          exact h2)
        rw [if_neg ht, if_neg ht, hrec]


/-! ## Claim theorems -/

/-- C1 counterexample: the key 01M has trailing band letter M, which does
not precede M in the band alphabet, so the claim as stated requires the
northern-hemisphere projection EPSG:32601 for it; both projection choices
in the source instead resolve 01M to the southern-hemisphere projection
EPSG:32701, because the source comparison is less-or-equal. -/
theorem c1_counterexample :
    ¬(bandIdx 'M' < bandIdx 'M') ∧
    make_rectangle_proj "01M" = "EPSG:32701" ∧
    getUrlCrs none "s2" "IMAGEPROJ" "01M" = "EPSG:32701" ∧
    ("EPSG:32701" : String) ≠ "EPSG:326" ++ "01" := by
  refine ⟨by omega, by decide, by decide, by decide⟩

set_option maxHeartbeats 2000000 in
/-- C1 (amended): for every valid zone key, formed from a two-digit zone
number 1..60 and a band letter of the 20-letter alphabet, if the trailing
letter precedes OR EQUALS M in the band alphabet then both projection
choices (rectangle construction and download-URL generation) resolve to the
southern-hemisphere projection EPSG base 32700 plus the zone number, and if
the trailing letter strictly follows M they resolve to the
northern-hemisphere projection EPSG base 32600 plus the zone number. -/
theorem c1_amended : ∀ n : Nat, n < 61 → 1 ≤ n → ∀ c, c ∈ lat_labels →
    ((bandIdx c ≤ bandIdx 'M' →
        make_rectangle_proj (zfill2 n ++ Char.toString c) = "EPSG:327" ++ zfill2 n ∧
        getUrlCrs none "s2" "IMAGEPROJ" (zfill2 n ++ Char.toString c) =
          "EPSG:327" ++ zfill2 n) ∧
      (bandIdx 'M' < bandIdx c →
        make_rectangle_proj (zfill2 n ++ Char.toString c) = "EPSG:326" ++ zfill2 n ∧
        getUrlCrs none "s2" "IMAGEPROJ" (zfill2 n ++ Char.toString c) =
          "EPSG:326" ++ zfill2 n)) := by
  decide

/-- Witness for the amended C1 at zone key 17N: N follows M in the band
alphabet, and both projection choices resolve 17N to EPSG:32617. -/
theorem c1_amended_witness :
    (17 : Nat) < 61 ∧ (1 : Nat) ≤ 17 ∧ 'N' ∈ lat_labels ∧
    ((bandIdx 'N' ≤ bandIdx 'M' →
        make_rectangle_proj (zfill2 17 ++ Char.toString 'N') = "EPSG:327" ++ zfill2 17 ∧
        getUrlCrs none "s2" "IMAGEPROJ" (zfill2 17 ++ Char.toString 'N') =
          "EPSG:327" ++ zfill2 17) ∧
      (bandIdx 'M' < bandIdx 'N' →
        make_rectangle_proj (zfill2 17 ++ Char.toString 'N') = "EPSG:326" ++ zfill2 17 ∧
        getUrlCrs none "s2" "IMAGEPROJ" (zfill2 17 ++ Char.toString 'N') =
          "EPSG:326" ++ zfill2 17)) :=
  ⟨by omega, by omega, by decide, c1_amended 17 (by omega) (by omega) 'N' (by decide)⟩

/-- C2: the export poll-loop guard of the source is false for EVERY list of
observed task states, because for a single observed state the disjunction
state not READY or state not RUNNING always holds; so the loop body never
executes and the loop exits immediately even while a task is still READY or
RUNNING, where the spec condition (poll while any job is non-terminal)
requires another 60-second poll round. -/
theorem c2_poll_guard_broken :
    (∀ states : List String, poll_guard states = false) ∧
    poll_guard ["RUNNING"] = false ∧
    poll_guard ["READY"] = false ∧
    spec_poll_continue ["RUNNING"] = true ∧
    spec_poll_continue ["READY"] = true := by
  refine ⟨?_, by decide, by decide, by decide, by decide⟩
  intro states
  have h : ∀ s : String, ((s != "READY") || (s != "RUNNING")) = true := by
    intro s
    by_cases h1 : s = "READY"
    · subst h1
      decide
    · simp [bne, h1]
  have hall : states.all (fun s => (s != "READY") || (s != "RUNNING")) = true :=
    List.all_eq_true.mpr (fun s _ => h s)
  unfold poll_guard
  rw [hall]
  rfl

/-- C3: for every index in the pipeline, a fetch whose ten attempts all fail
runs exactly ten attempts with backoff delays 1, 2, 4, ..., 256 seconds
between them and ends in a terminal failure for that index; the pipeline
still produces one outcome per requested index, the outcome at each
position is produced by the attempts of that position alone, changing the attempts
of the failing index never changes the outcome of any other index, and no
run inspects an attempt beyond the tenth. -/
theorem c3_retry_backoff (indices : List Nat) (attempts : Nat → Nat → Option String)
    (i : Nat) (hmem : i ∈ indices) (hfail : ∀ a, a < 10 → attempts i a = none) :
    retryCall (attempts i) = (none, [1, 2, 4, 8, 16, 32, 64, 128, 256]) ∧
    (pipelineRun indices attempts).length = indices.length ∧
    (∀ j : Nat, (pipelineRun indices attempts)[j]? =
      (indices[j]?).map (fun idx => retryCall (attempts idx))) ∧
    (∀ attempts2 : Nat → Nat → Option String, (∀ j, j ≠ i → attempts2 j = attempts j) →
      ∀ j idx : Nat, indices[j]? = some idx → idx ≠ i →
        (pipelineRun indices attempts2)[j]? = (pipelineRun indices attempts)[j]?) ∧
    (∀ f g : Nat → Option String, (∀ a, a < 10 → f a = g a) → retryCall f = retryCall g) := by
  refine ⟨?_, ?_, ?_, ?_, ?_⟩
  · have h := retryRun_all_fail 10 0 1 (fun i2 hi2 => by simpa using hfail i2 hi2)
    have h2 : (List.range (10 - 1)).map (fun i2 => 1 * 2 ^ i2) =
        [1, 2, 4, 8, 16, 32, 64, 128, 256] := by decide
    rw [retryCall, h, h2]
  · simp [pipelineRun]
  · intro j
    simp [pipelineRun, List.getElem?_map]
  · intro attempts2 h2 j idx hj hne
    simp only [pipelineRun, List.getElem?_map, hj]
    simp only [Option.map_some']
    rw [h2 idx hne]
  · intro f g hfg
    rw [retryCall, retryCall]
    exact retryRun_congr 10 0 1 (fun i2 hi2 => by simpa using hfg i2 hi2)

/-- Witness for C3: a two-index pipeline where index 5 fails all ten
attempts ends with the failure outcome and the delay schedule
1, 2, 4, ..., 256 for index 5. -/
theorem c3_witness :
    (5 : Nat) ∈ ([5, 7] : List Nat) ∧
    (∀ a : Nat, a < 10 → (fun (_ : Nat) (_ : Nat) => (none : Option String)) 5 a = none) ∧
    retryCall ((fun (_ : Nat) (_ : Nat) => (none : Option String)) 5) =
      (none, [1, 2, 4, 8, 16, 32, 64, 128, 256]) :=
  ⟨by decide, fun _ _ => rfl,
    (c3_retry_backoff [5, 7] (fun _ _ => none) 5 (by decide) (fun _ _ => rfl)).1⟩

/-- C4 counterexample: the box of zone 31V in the built registry is 3
degrees wide, which is neither exactly 6 nor between 9 and 12 even though
31V is one of the overridden zones; and the box of zone 01X is 12 degrees
tall, not 8. -/
theorem c4_counterexample :
    (("31V", ((0 : Int), 56, 3, 64)) : String × Box) ∈ getMGRS ∧
    ¬(((3 : Int) - 0 = 6) ∨ ((9 : Int) ≤ 3 - 0 ∧ (3 : Int) - 0 ≤ 12)) ∧
    (("01X", ((-180 : Int), 72, -174, 84)) : String × Box) ∈ getMGRS ∧
    ¬((84 : Int) - 72 = 8) :=
  ⟨mem_getMGRS_31V, by decide, mem_getMGRS_01X, by decide⟩

/-- C4 (amended): every bounding box in the built registry satisfies
west < east and south < north; every box is exactly 6 degrees wide except
31V (3 degrees), 32V, 31X and 37X (9 degrees) and 33X and 35X (12 degrees);
and every box is exactly 8 degrees tall except the band-X boxes, which are
12 degrees tall. -/
theorem c4_amended (k : String) (w s e n : Int)
    (h : ((k, (w, s, e, n)) : String × Box) ∈ getMGRS) :
    w < e ∧ s < n ∧
    (e - w = 6 ∨ (k = "31V" ∧ e - w = 3) ∨
      (k ∈ (["32V", "31X", "37X"] : List String) ∧ e - w = 9) ∨
      (k ∈ (["33X", "35X"] : List String) ∧ e - w = 12)) ∧
    (n - s = 8 ∨ (k ∈ xBandKeys ∧ n - s = 12)) := by
  rcases mem_getMGRS_cases h with h1 | h1 | h1
  · simp only [overridePairs, List.mem_cons, List.not_mem_nil, or_false,
      Prod.mk.injEq] at h1
    rcases h1 with ⟨rfl, rfl, rfl, rfl, rfl⟩ | ⟨rfl, rfl, rfl, rfl, rfl⟩ |
      ⟨rfl, rfl, rfl, rfl, rfl⟩ | ⟨rfl, rfl, rfl, rfl, rfl⟩ |
      ⟨rfl, rfl, rfl, rfl, rfl⟩ | ⟨rfl, rfl, rfl, rfl, rfl⟩
    all_goals decide
  · unfold pairsX at h1
    rcases List.mem_map.mp h1 with ⟨i, hi, he⟩
    injection he with hk hrest
    injection hrest with hw hrest
    injection hrest with hs hrest
    injection hrest with he2 hn2
    subst hk
    subst hw
    subst hs
    subst he2
    subst hn2
    refine ⟨by simp only [LONSTEP]; omega, by omega, Or.inl ?_, Or.inr ⟨?_, by omega⟩⟩
    · simp only [LONSTEP]
      omega
    · exact List.mem_map.mpr ⟨i, hi, rfl⟩
  · unfold pairs0 at h1
    rcases List.mem_flatMap.mp h1 with ⟨p, hp, hq⟩
    rcases List.mem_map.mp hq with ⟨q, hq2, he⟩
    injection he with hk hrest
    injection hrest with hw hrest
    injection hrest with hs hrest
    injection hrest with he2 hn2
    subst hk
    subst hw
    subst hs
    subst he2
    subst hn2
    refine ⟨by simp only [LONSTEP]; omega, by simp only [LATSTEP]; omega,
      Or.inl (by simp only [LONSTEP]; omega), Or.inl (by simp only [LATSTEP]; omega)⟩

/-- Witness for the amended C4 at the registry entry of zone 31V: the box
(0, 56, 3, 64) is normalized, 3 degrees wide through the 31V exception, and
8 degrees tall. -/
theorem c4_witness :
    (("31V", ((0 : Int), 56, 3, 64)) : String × Box) ∈ getMGRS ∧
    ((0 : Int) < 3 ∧ (56 : Int) < 64 ∧
      ((3 : Int) - 0 = 6 ∨ (("31V" : String) = "31V" ∧ (3 : Int) - 0 = 3) ∨
        (("31V" : String) ∈ (["32V", "31X", "37X"] : List String) ∧ (3 : Int) - 0 = 9) ∨
        (("31V" : String) ∈ (["33X", "35X"] : List String) ∧ (3 : Int) - 0 = 12)) ∧
      ((64 : Int) - 56 = 8 ∨ (("31V" : String) ∈ xBandKeys ∧ (64 : Int) - 56 = 12))) :=
  ⟨mem_getMGRS_31V, c4_amended "31V" 0 56 3 64 mem_getMGRS_31V⟩

/-- C5: the three deleted wide-zone keys 32X, 34X and 36X are absent from
the built registry, so looking any of them up fails, and lookup of every
key absent from the registry fails in the same way. -/
theorem c5_deleted_keys_absent :
    lookupG getMGRS "32X" = none ∧ lookupG getMGRS "34X" = none ∧
    lookupG getMGRS "36X" = none ∧
    (∀ k : String, k ∉ getMGRS.map Prod.fst → lookupG getMGRS k = none) := by
  have habs : ∀ q : String, q ∈ (["32X", "34X", "36X"] : List String) →
      q ∉ keysG getMGRS := by
    intro q hq hmem
    exact (mem_keysG_getMGRS_iff.mp hmem).2 hq
  refine ⟨?_, ?_, ?_, ?_⟩
  · exact lookupG_eq_none (habs _ (by decide))
  · exact lookupG_eq_none (habs _ (by decide))
  · exact lookupG_eq_none (habs _ (by decide))
  · intro k hk
    exact lookupG_eq_none hk

/-- Witness for C5 at the absent key 99Z: it is not a registry key and its
lookup fails. -/
theorem c5_witness :
    ("99Z" : String) ∉ getMGRS.map Prod.fst ∧ lookupG getMGRS "99Z" = none := by
  have h : ("99Z" : String) ∉ getMGRS.map Prod.fst := by
    intro hmem
    have h2 := (mem_keysG_getMGRS_iff.mp hmem).1
    rcases mem_pairs0_keys_iff.mp h2 with ⟨c, hc, n2, _, he⟩
    have hz : c = 'Z' :=
      (keyOf_inj (he.trans (show ("99Z" : String) = keyOf 99 'Z' from rfl))).2
    subst hz
    revert hc
    decide
  exact ⟨h, c5_deleted_keys_absent.2.2.2 "99Z" h⟩

/-- C6: lookup of 31V in the built registry returns exactly (0, 56, 3, 64)
and lookup of 33X returns exactly (9, 72, 21, 84). -/
theorem c6_lookup_31V_33X :
    lookupG getMGRS "31V" = some (0, 56, 3, 64) ∧
    lookupG getMGRS "33X" = some (9, 72, 21, 84) := by
  constructor
  · rw [getMGRS_eq, lookupG_delKey_ne _ _ (by decide), lookupG_delKey_ne _ _ (by decide),
      lookupG_delKey_ne _ _ (by decide)]
    unfold gridOv
    rw [lookupG_setKey_ne _ _ _ (by decide), lookupG_setKey_ne _ _ _ (by decide),
      lookupG_setKey_ne _ _ _ (by decide), lookupG_setKey_ne _ _ _ (by decide),
      lookupG_setKey_ne _ _ _ (by decide)]
    exact lookupG_setKey_self grid1 "31V" (0, 56, 3, 64)
  · rw [getMGRS_eq, lookupG_delKey_ne _ _ (by decide), lookupG_delKey_ne _ _ (by decide),
      lookupG_delKey_ne _ _ (by decide)]
    unfold gridOv
    rw [lookupG_setKey_ne _ _ _ (by decide), lookupG_setKey_ne _ _ _ (by decide)]
    exact lookupG_setKey_self _ "33X" (9, 72, 21, 84)

/-- C7: whenever the coordinate transform succeeds, the rectangle built by
make_rectangle is normalized: each min corner coordinate is at most the
corresponding max corner coordinate, for any point, zone key and
nonnegative buffer radii, independent of hemisphere sign conventions. -/
theorem c7_rectangle_normalized (grid_key : String) (transform : ℚ × ℚ → ℚ × ℚ)
    (coords : ℚ × ℚ) (hb : ℚ) (vb : Option ℚ)
    (hhb : 0 ≤ hb) (hvb : 0 ≤ vb.getD hb) :
    (make_rectangle grid_key transform coords hb vb).2.1 ≤
      (make_rectangle grid_key transform coords hb vb).2.2.2.1 ∧
    (make_rectangle grid_key transform coords hb vb).2.2.1 ≤
      (make_rectangle grid_key transform coords hb vb).2.2.2.2 := by
  unfold make_rectangle
  dsimp only
  constructor
  · linarith
  · linarith

/-- Witness for C7 at zone key 17N, a translation transform, point
(10, 20) and buffer radius 5: the rectangle is normalized. -/
theorem c7_witness :
    (0 : ℚ) ≤ 5 ∧ (0 : ℚ) ≤ (none : Option ℚ).getD 5 ∧
    ((make_rectangle "17N" (fun p => (p.1 + 1, p.2 + 2)) (10, 20) 5 none).2.1 ≤
      (make_rectangle "17N" (fun p => (p.1 + 1, p.2 + 2)) (10, 20) 5 none).2.2.2.1 ∧
    (make_rectangle "17N" (fun p => (p.1 + 1, p.2 + 2)) (10, 20) 5 none).2.2.1 ≤
      (make_rectangle "17N" (fun p => (p.1 + 1, p.2 + 2)) (10, 20) 5 none).2.2.2.2) :=
  ⟨by norm_num, by norm_num,
    c7_rectangle_normalized "17N" (fun p => (p.1 + 1, p.2 + 2)) (10, 20) 5 none
      (by norm_num) (by norm_num)⟩

/-- C8 (code bug): the stratified-sampling seed sent to the catalog on the
s2 branch ignores the caller-supplied seed entirely: the statement
np.random.seed = seed rebinds an attribute instead of seeding the
generator, and the request seed is a fresh np.random.randint draw.  With
the same supplied seed 42 but different ambient generator streams the
issued requests use different seeds (7 versus 13), and in general the
sampling seed depends only on the generator stream, never on the supplied
seed value. -/
theorem c8_seed_ignored :
    s2_sampling_seed (some 42) ⟨[7, 7], none⟩ = 7 ∧
    s2_sampling_seed (some 42) ⟨[13, 13], none⟩ = 13 ∧
    (7 : Nat) ≠ 13 ∧
    (∀ s1 s2 : Nat, ∀ st : NpRandomState,
      s2_sampling_seed (some s1) st = s2_sampling_seed (some s2) st) := by
  refine ⟨rfl, rfl, by decide, ?_⟩
  intro s1 s2 st
  obtain ⟨draws, attr⟩ := st
  cases draws
  · rfl
  · rfl

/-- C10: the region filter is built from the rectangle buffered outward by
500000 meters for sensor s2 and from the unbuffered rectangle for l8 and
l9, and the rectangle geometry returned alongside the filter when requested
is the unbuffered one for every sensor. -/
theorem c10_region_filter (a b c d : ℚ) (get_rect : Bool) :
    (get_region_filter_from_bounds "s2" (a, b, c, d) get_rect).1 =
      EEFilter.bounds (EEGeom.buffer (EEGeom.rectangle a b c d) 500000) ∧
    (get_region_filter_from_bounds "l8" (a, b, c, d) get_rect).1 =
      EEFilter.bounds (EEGeom.rectangle a b c d) ∧
    (get_region_filter_from_bounds "l9" (a, b, c, d) get_rect).1 =
      EEFilter.bounds (EEGeom.rectangle a b c d) ∧
    (∀ sensor : String, (get_region_filter_from_bounds sensor (a, b, c, d) true).2 =
      some (EEGeom.rectangle a b c d)) := by
  refine ⟨?_, ?_, ?_, ?_⟩
  · cases get_rect
    · rfl
    · rfl
  · cases get_rect
    · rfl
    · rfl
  · cases get_rect
    · rfl
    · rfl
  · intro sensor
    unfold get_region_filter_from_bounds
    by_cases h : sensor = "s2"
    · simp [h]
    · simp [h]

/-- C9: the key set of the built registry is exactly the two-digit
zero-padded zone numbers 01 through 60 concatenated with each of the 20
band letters, minus the three deleted keys 32X, 34X and 36X, for 1197
distinct keys in total and no others. -/
theorem c9_key_set :
    (∀ k : String, k ∈ getMGRS.map Prod.fst ↔
      ((∃ n : Nat, 1 ≤ n ∧ n ≤ 60 ∧ ∃ c ∈ lat_labels, k = zfill2 n ++ Char.toString c) ∧
        k ∉ (["32X", "34X", "36X"] : List String))) ∧
    (getMGRS.map Prod.fst).Nodup ∧ (getMGRS.map Prod.fst).length = 1197 := by
  refine ⟨?_, nodup_keysG_getMGRS, length_keysG_getMGRS⟩
  intro k
  rw [show getMGRS.map Prod.fst = keysG getMGRS from rfl, mem_keysG_getMGRS_iff]
  constructor
  · rintro ⟨hK, hdel⟩
    rcases mem_pairs0_keys_iff.mp hK with ⟨c, hc, n, hn, he⟩
    rcases mem_lon_labels_iff.mp hn with ⟨h1, h2⟩
    exact ⟨⟨n, h1, h2, c, hc, he.symm⟩, hdel⟩
  · rintro ⟨⟨n, h1, h2, c, hc, he⟩, hdel⟩
    refine ⟨mem_pairs0_keys_iff.mpr ⟨c, hc, n, mem_lon_labels_iff.mpr ⟨h1, h2⟩, he.symm⟩, hdel⟩

end Eedl
